import Mathlib

/-!
Verification development for the PandoraSDK object-lifecycle and
list-transaction substrate. The definitions below are a shallow embedding of
the repository headers under src; where only a declaration is present in the
headers (the corresponding .cc implementation file is not part of the source
tree given), the definition is modelled from the specification and its doc
comment says so explicitly.
-/

namespace PandoraSDK

/-- Status codes returned by core operations, embedding the StatusCode
enumeration referenced by every manager header (Pandora/StatusCodes.h). -/
inductive StatusCode where
  | success
  | failure
  | notFound
  | notAllowed
  | alreadyPresent
  | invalidParameter
  | notInitStatus
  deriving DecidableEq, Repr

/-- Lookup in an association map (embedding std::unordered_map and std::map as
a key-value list whose insert replaces the first matching key). -/
def mapFind {κ β : Type} [DecidableEq κ] (k : κ) : List (κ × β) → Option β
  | [] => none
  | p :: rest => if p.1 = k then some p.2 else mapFind k rest

/-- Insert into an association map, replacing the first entry with the same
key when one exists and appending otherwise. -/
def mapInsert {κ β : Type} [DecidableEq κ] (k : κ) (v : β) : List (κ × β) → List (κ × β)
  | [] => [(k, v)]
  | p :: rest => if p.1 = k then (k, v) :: rest else p :: mapInsert k v rest

/-- Erase every entry with the given key from an association map. -/
def mapErase {κ β : Type} [DecidableEq κ] (k : κ) (m : List (κ × β)) : List (κ × β) :=
  m.filter (fun p => decide (p.1 ≠ k))

/-- The number of entries carrying a given key. -/
def countKey {κ β : Type} [DecidableEq κ] (k : κ) (m : List (κ × β)) : Nat :=
  m.countP (fun p => decide (p.1 = k))

theorem mapFind_insert_self {κ β : Type} [DecidableEq κ] (k : κ) (v : β)
    (m : List (κ × β)) : mapFind k (mapInsert k v m) = some v := by
  induction m with
  | nil => simp [mapInsert, mapFind]
  | cons p rest ih =>
    by_cases h : p.1 = k
    · simp [mapInsert, h, mapFind]
    · simp [mapInsert, h, mapFind, ih]

theorem mapFind_insert_ne {κ β : Type} [DecidableEq κ] {k k2 : κ} (v : β)
    (m : List (κ × β)) (h : k2 ≠ k) :
    mapFind k2 (mapInsert k v m) = mapFind k2 m := by
  have h2 : ¬(k = k2) := fun hh => h hh.symm
  induction m with
  | nil => simp [mapInsert, mapFind, h2]
  | cons p rest ih =>
    by_cases hp : p.1 = k
    · have hpk2 : ¬(p.1 = k2) := by rw [hp]; exact h2
      simp [mapInsert, hp, mapFind, h2, hpk2]
    · simp only [mapInsert, hp, if_false, mapFind]
      by_cases hq : p.1 = k2
      · simp [hq]
      · simp [hq, ih]

theorem mapFind_erase_self {κ β : Type} [DecidableEq κ] (k : κ)
    (m : List (κ × β)) : mapFind k (mapErase k m) = none := by
  induction m with
  | nil => simp [mapErase, mapFind]
  | cons p rest ih =>
    by_cases h : p.1 = k
    · simpa [mapErase, h] using ih
    · simpa [mapErase, mapFind, h] using ih

theorem mapFind_erase_ne {κ β : Type} [DecidableEq κ] {k k2 : κ}
    (m : List (κ × β)) (h : k2 ≠ k) :
    mapFind k2 (mapErase k m) = mapFind k2 m := by
  induction m with
  | nil => simp [mapErase, mapFind]
  | cons p rest ih =>
    by_cases hp : p.1 = k
    · have hpk2 : ¬(p.1 = k2) := by rw [hp]; exact fun hh => h hh.symm
      rw [show mapErase k (p :: rest) = mapErase k rest by
        simp [mapErase, List.filter_cons, hp]]
      rw [show mapFind k2 (p :: rest) = mapFind k2 rest by simp [mapFind, hpk2]]
      exact ih
    · rw [show mapErase k (p :: rest) = p :: mapErase k rest by
        simp [mapErase, List.filter_cons, hp]]
      by_cases hq : p.1 = k2
      · simp [mapFind, hq]
      · simpa [mapFind, hq] using ih

theorem mapFind_eq_none_iff {κ β : Type} [DecidableEq κ] (k : κ)
    (m : List (κ × β)) : mapFind k m = none ↔ ∀ p ∈ m, p.1 ≠ k := by
  induction m with
  | nil => simp [mapFind]
  | cons p rest ih =>
    by_cases h : p.1 = k
    · simp [mapFind, h]
    · simp [mapFind, h, ih]

theorem countKey_eq_zero {κ β : Type} [DecidableEq κ] {k : κ}
    {m : List (κ × β)} (h : mapFind k m = none) : countKey k m = 0 := by
  rw [mapFind_eq_none_iff] at h
  simpa [countKey, List.countP_eq_zero] using h

theorem countKey_insert_of_none {κ β : Type} [DecidableEq κ] {k : κ} (v : β)
    {m : List (κ × β)} (h : mapFind k m = none) :
    countKey k (mapInsert k v m) = countKey k m + 1 := by
  induction m with
  | nil => simp [mapInsert, countKey]
  | cons p rest ih =>
    simp only [mapFind] at h
    by_cases hp : p.1 = k
    · simp [hp] at h
    · simp only [hp, if_false] at h
      simpa [mapInsert, hp, countKey, List.countP_cons] using ih h

theorem countKey_insert_of_some {κ β : Type} [DecidableEq κ] {k : κ} (v : β)
    {m : List (κ × β)} {w : β} (h : mapFind k m = some w) :
    countKey k (mapInsert k v m) = countKey k m := by
  induction m with
  | nil => simp [mapFind] at h
  | cons p rest ih =>
    simp only [mapFind] at h
    by_cases hp : p.1 = k
    · simp [mapInsert, hp, countKey, List.countP_cons]
    · simp only [hp, if_false] at h
      simpa [mapInsert, hp, countKey, List.countP_cons] using ih h

/-- A floating point input value: either a finite rational or one of the
non-finite values that std::isnan and std::isinf detect. Machine rounding is
irrelevant to the validity checks being modelled. -/
inductive RFloat where
  | val (q : ℚ)
  | nan
  | inf
  deriving DecidableEq, Repr

/-- Whether the value is NaN, mirroring std::isnan. -/
def RFloat.isNaN : RFloat → Bool
  | .nan => true
  | _ => false

/-- Whether the value is infinite, mirroring std::isinf. -/
def RFloat.isInf : RFloat → Bool
  | .inf => true
  | _ => false

/-- Embedding of the generic PandoraInputType::IsValid
(src/Pandora/PandoraInputTypes.h lines 249 to 253): not NaN and not Inf. -/
def floatIsValid (t : RFloat) : Bool :=
  !(t.isNaN || t.isInf)

/-- Embedding of the std::string specialisation of PandoraInputType::IsValid
(src/Pandora/PandoraInputTypes.h lines 321 to 325): the string is valid when
it is not empty. -/
def stringIsValid (t : String) : Bool :=
  !t.isEmpty

/-- Embedding of the PandoraInputType wrapper
(src/Pandora/PandoraInputTypes.h): m_pValue is an Option (none models both a
null pointer and a deleted value) and m_isInitialized mirrors the flag. -/
structure PandoraInputType (α : Type) where
  pValue : Option α
  isInit : Bool
  deriving DecidableEq, Repr

/-- Embedding of PandoraInputType::Set (src/Pandora/PandoraInputTypes.h lines
174 to 185), parameterised by the per-type IsValid member. The source first
deletes the held value whenever the wrapper is marked initialized, then checks
validity: an invalid input raises STATUS_CODE_INVALID_PARAMETER with the
already-mutated wrapper left behind, otherwise the new value is installed and
the flag set. The returned pair is (outcome, post-state); a thrown
StatusCodeException is the non-success outcome. -/
def PandoraInputType.set {α : Type} (valid : α → Bool) (s : PandoraInputType α)
    (t : α) : StatusCode × PandoraInputType α :=
  let s1 := if s.isInit then { s with pValue := none } else s
  if valid t = false then
    (StatusCode.invalidParameter, s1)
  else
    (StatusCode.success, { pValue := some t, isInit := true })

/-- Embedding of PandoraInputType::Get (src/Pandora/PandoraInputTypes.h lines
189 to 196): raises STATUS_CODE_NOT_INITIALIZED when the flag is unset,
otherwise dereferences the stored pointer; dereferencing a pointer whose
target was deleted is undefined behaviour in the source and is modelled as a
failure outcome. -/
def PandoraInputType.get {α : Type} (s : PandoraInputType α) :
    Except StatusCode α :=
  if s.isInit = false then
    Except.error StatusCode.notInitStatus
  else
    match s.pValue with
    | some v => Except.ok v
    | none => Except.error StatusCode.failure

/-- A concrete wrapper for the claim C3 counterexample: it holds the finite
value 1 and is marked initialized. -/
def c3Start : PandoraInputType RFloat :=
  { pValue := some (RFloat.val 1), isInit := true }

/-- Claim C3 as stated is false at a concrete input: a float wrapper holding
the value 1, given NaN, does fail with INVALID_PARAMETER and installs no new
value, but the previously held value does not remain held: Set deletes it
before validating the input, so it is no longer retrievable. -/
theorem C3_counterexample :
    (PandoraInputType.set floatIsValid c3Start RFloat.nan).1 =
      StatusCode.invalidParameter ∧
    ¬((PandoraInputType.set floatIsValid c3Start RFloat.nan).2.pValue =
      some (RFloat.val 1)) ∧
    ¬(PandoraInputType.get
      (PandoraInputType.set floatIsValid c3Start RFloat.nan).2 =
      Except.ok (RFloat.val 1)) := by
  refine ⟨rfl, by decide, fun h => ?_⟩
  rw [show PandoraInputType.get
      (PandoraInputType.set floatIsValid c3Start RFloat.nan).2 =
      Except.error StatusCode.failure from rfl] at h
  exact Except.noConfusion h

/-- Claim C3 amended: for every float wrapper and every invalid input
(NaN or Inf), Set fails with INVALID_PARAMETER and installs no new value, and
the initialization flag is unchanged; however a previously held value is
deleted before validation runs, so after the failure the wrapper holds no
value at all (rather than the old value). -/
theorem C3_amended_set_not_atomic (s : PandoraInputType RFloat) (t : RFloat)
    (h : floatIsValid t = false) :
    (PandoraInputType.set floatIsValid s t).1 = StatusCode.invalidParameter ∧
    (PandoraInputType.set floatIsValid s t).2.isInit = s.isInit ∧
    (PandoraInputType.set floatIsValid s t).2.pValue =
      (if s.isInit then none else s.pValue) := by
  unfold PandoraInputType.set
  by_cases hi : s.isInit = true
  · simp [h, hi]
  · simp only [Bool.not_eq_true] at hi
    simp [h, hi]

/-- Witness for the amended claim C3: concrete evaluation at the wrapper
holding 1 and the input NaN. -/
theorem C3_amended_witness :
    (PandoraInputType.set floatIsValid c3Start RFloat.nan).1 =
      StatusCode.invalidParameter ∧
    (PandoraInputType.set floatIsValid c3Start RFloat.nan).2.isInit =
      c3Start.isInit ∧
    (PandoraInputType.set floatIsValid c3Start RFloat.nan).2.pValue =
      (if c3Start.isInit then none else c3Start.pValue) :=
  C3_amended_set_not_atomic c3Start RFloat.nan (by decide)

/-- Claim C10: the string input type rejects the empty string with
INVALID_PARAMETER for every wrapper state, because the string specialisation
of IsValid is non-emptiness; a non-empty string such as "x" is valid. -/
theorem C10_string_empty_rejected :
    (∀ s : PandoraInputType String,
      (PandoraInputType.set stringIsValid s "").1 =
        StatusCode.invalidParameter) ∧
    stringIsValid "" = false ∧
    stringIsValid "x" = true := by
  refine ⟨?_, by decide, by decide⟩
  intro s
  have he : stringIsValid "" = false := by decide
  simp [PandoraInputType.set, he]

/-- Embedding of the per-mc-particle weight map UidToWeightMap
(src/unnamed/part_000 line 137): mc particle uid to accumulated weight. -/
def UidToWeightMap : Type := List (Nat × ℚ)

/-- Embedding of ObjectRelationMap (src/unnamed/part_000 line 138): object uid
to its uid-to-weight map. -/
def ObjectRelationMap : Type := List (Nat × List (Nat × ℚ))

/-- Modelled from the spec: MCManager::SetUidToMCParticleRelationship, declared
at src/unnamed/part_000 lines 149 to 150 with its body in the missing
MCManager.cc. The spec states that registering the same (objectUid, mcUid)
pair more than once accumulates the weights by summation rather than
overwriting: a fresh inner map is created for a new object uid, and an
existing (objectUid, mcUid) entry has the new weight added to it. -/
def setUidToMCParticleRelationship (objectUid mcParticleUid : Nat) (w : ℚ)
    (objectRelationMap : ObjectRelationMap) : StatusCode × ObjectRelationMap :=
  match mapFind objectUid objectRelationMap with
  | none =>
      (StatusCode.success, mapInsert objectUid [(mcParticleUid, w)] objectRelationMap)
  | some inner =>
      match mapFind mcParticleUid inner with
      | none =>
          (StatusCode.success,
            mapInsert objectUid (mapInsert mcParticleUid w inner) objectRelationMap)
      | some w0 =>
          (StatusCode.success,
            mapInsert objectUid (mapInsert mcParticleUid (w0 + w) inner) objectRelationMap)

/-- The registered weight for a pair (objectUid, mcUid), when present. -/
def relWeight (m : ObjectRelationMap) (objectUid mcParticleUid : Nat) : Option ℚ :=
  (mapFind objectUid m).bind (fun inner => mapFind mcParticleUid inner)

/-- The number of entries in the registry for a pair (objectUid, mcUid). -/
def relEntryCount (m : ObjectRelationMap) (objectUid mcParticleUid : Nat) : Nat :=
  ((mapFind objectUid m).map (fun inner => countKey mcParticleUid inner)).getD 0

theorem setUid_snd_of_none {m : ObjectRelationMap} {o t : Nat} (w : ℚ)
    (h : relWeight m o t = none) :
    relWeight (setUidToMCParticleRelationship o t w m).2 o t = some w ∧
    relEntryCount (setUidToMCParticleRelationship o t w m).2 o t = 1 := by
  cases ho : mapFind o m with
  | none =>
    have hstep : (setUidToMCParticleRelationship o t w m).2 =
        mapInsert o [(t, w)] m := by
      unfold setUidToMCParticleRelationship
      rw [ho]
    unfold relWeight relEntryCount
    rw [hstep, mapFind_insert_self]
    simp [mapFind, countKey]
  | some inner =>
    have ht : mapFind t inner = none := by
      unfold relWeight at h
      rw [ho] at h
      simpa using h
    have hstep : (setUidToMCParticleRelationship o t w m).2 =
        mapInsert o (mapInsert t w inner) m := by
      unfold setUidToMCParticleRelationship
      rw [ho]
      show (match mapFind t inner with
        | none => (StatusCode.success, mapInsert o (mapInsert t w inner) m)
        | some w0 =>
            (StatusCode.success, mapInsert o (mapInsert t (w0 + w) inner) m)).2 = _
      rw [ht]
    unfold relWeight relEntryCount
    rw [hstep, mapFind_insert_self]
    simp only [Option.some_bind, Option.map_some', Option.getD_some]
    rw [mapFind_insert_self, countKey_insert_of_none w ht, countKey_eq_zero ht]
    exact ⟨rfl, rfl⟩

theorem setUid_snd_of_some {m : ObjectRelationMap} {o t : Nat} {w0 : ℚ} (w : ℚ)
    (h : relWeight m o t = some w0) :
    relWeight (setUidToMCParticleRelationship o t w m).2 o t = some (w0 + w) ∧
    relEntryCount (setUidToMCParticleRelationship o t w m).2 o t =
      relEntryCount m o t := by
  cases ho : mapFind o m with
  | none =>
    unfold relWeight at h
    rw [ho] at h
    simp at h
  | some inner =>
    have ht : mapFind t inner = some w0 := by
      unfold relWeight at h
      rw [ho] at h
      simpa using h
    have hstep : (setUidToMCParticleRelationship o t w m).2 =
        mapInsert o (mapInsert t (w0 + w) inner) m := by
      unfold setUidToMCParticleRelationship
      rw [ho]
      show (match mapFind t inner with
        | none => (StatusCode.success, mapInsert o (mapInsert t w inner) m)
        | some w1 =>
            (StatusCode.success, mapInsert o (mapInsert t (w1 + w) inner) m)).2 = _
      rw [ht]
    unfold relWeight relEntryCount
    rw [hstep, mapFind_insert_self, ho]
    simp only [Option.some_bind, Option.map_some', Option.getD_some]
    rw [mapFind_insert_self, countKey_insert_of_some (w0 + w) ht]
    exact ⟨rfl, rfl⟩

/-- Claim C2: registering (O, T, w1) and then (O, T, w2) on a registry with no
prior entry for the pair leaves exactly one entry for (O, T) whose weight is
the sum w1 + w2, not the last written weight. -/
theorem C2_weight_accumulation (m : ObjectRelationMap) (o t : Nat) (w1 w2 : ℚ)
    (h : relWeight m o t = none) :
    relWeight (setUidToMCParticleRelationship o t w2
      (setUidToMCParticleRelationship o t w1 m).2).2 o t = some (w1 + w2) ∧
    relEntryCount (setUidToMCParticleRelationship o t w2
      (setUidToMCParticleRelationship o t w1 m).2).2 o t = 1 := by
  have h1 := setUid_snd_of_none w1 h
  have h2 := setUid_snd_of_some (m := (setUidToMCParticleRelationship o t w1 m).2)
    w2 h1.1
  exact ⟨h2.1, h2.2.trans h1.2⟩

/-- Witness for claim C2: two registrations of weight 3/10 for the same pair
on an empty registry leave one entry of weight 3/5, matching the concrete
0.3 + 0.3 = 0.6 instance in the claim. -/
theorem C2_weight_accumulation_witness :
    relWeight (setUidToMCParticleRelationship 7 9 (3 / 10)
      (setUidToMCParticleRelationship 7 9 (3 / 10) ([] : ObjectRelationMap)).2).2
      7 9 = some (3 / 5) ∧
    relEntryCount (setUidToMCParticleRelationship 7 9 (3 / 10)
      (setUidToMCParticleRelationship 7 9 (3 / 10) ([] : ObjectRelationMap)).2).2
      7 9 = 1 := by
  have h := C2_weight_accumulation ([] : ObjectRelationMap) 7 9 (3 / 10) (3 / 10) rfl
  have hq : (3 : ℚ) / 10 + 3 / 10 = 3 / 5 := by norm_num
  exact ⟨by rw [h.1, hq], h.2⟩

/-- Embedding of the MCParticle creation parameters: the client-supplied uid
plus the remaining construction fields, opaque here. -/
structure MCParticleParams where
  uid : Nat
  attrs : Nat
  deriving DecidableEq, Repr

/-- Embedding of a constructed MCParticle object as far as the uid map is
concerned. -/
structure MCParticle where
  uid : Nat
  attrs : Nat
  deriving DecidableEq, Repr

/-- The uid-to-mc-particle map m_uidToMCParticleMap
(src/unnamed/part_000 line 162). -/
def UidToMCParticleMap : Type := List (Nat × MCParticle)

/-- Modelled from the spec: MCManager::Create, declared at
src/unnamed/part_000 lines 45 to 46 with its body in the missing MCManager.cc.
The spec states creation fails with ALREADY_PRESENT if the parameters uid
already maps to an object; otherwise the factory allocates the object and the
uid-to-object map gains the entry. -/
def mcCreate (params : MCParticleParams) (m : UidToMCParticleMap) :
    StatusCode × UidToMCParticleMap :=
  match mapFind params.uid m with
  | some _ => (StatusCode.alreadyPresent, m)
  | none =>
      (StatusCode.success,
        mapInsert params.uid { uid := params.uid, attrs := params.attrs } m)

/-- Claim C4: with a uid not yet present, the first Create succeeds; a second
Create carrying the same uid fails with ALREADY_PRESENT, leaves the map
untouched, and the first object remains retrievable unchanged. -/
theorem C4_uid_uniqueness (m : UidToMCParticleMap) (p q : MCParticleParams)
    (huid : q.uid = p.uid) (h : mapFind p.uid m = none) :
    (mcCreate p m).1 = StatusCode.success ∧
    (mcCreate q (mcCreate p m).2).1 = StatusCode.alreadyPresent ∧
    (mcCreate q (mcCreate p m).2).2 = (mcCreate p m).2 ∧
    mapFind p.uid (mcCreate q (mcCreate p m).2).2 =
      some { uid := p.uid, attrs := p.attrs } := by
  have h1 : mcCreate p m =
      (StatusCode.success, mapInsert p.uid { uid := p.uid, attrs := p.attrs } m) := by
    unfold mcCreate
    rw [h]
  have e2 : (mcCreate p m).2 =
      mapInsert p.uid { uid := p.uid, attrs := p.attrs } m := by
    rw [h1]
  have h3 : mcCreate q (mapInsert p.uid { uid := p.uid, attrs := p.attrs } m) =
      (StatusCode.alreadyPresent,
        mapInsert p.uid { uid := p.uid, attrs := p.attrs } m) := by
    unfold mcCreate
    rw [huid, mapFind_insert_self]
  refine ⟨by rw [h1], by rw [e2, h3], by rw [e2, h3], ?_⟩
  rw [e2, h3]
  exact mapFind_insert_self _ _ _

/-- Witness for claim C4: concrete duplicate creation with uid 5. -/
theorem C4_uid_uniqueness_witness :
    (mcCreate ⟨5, 1⟩ ([] : UidToMCParticleMap)).1 = StatusCode.success ∧
    (mcCreate ⟨5, 2⟩ (mcCreate ⟨5, 1⟩ ([] : UidToMCParticleMap)).2).1 =
      StatusCode.alreadyPresent ∧
    (mcCreate ⟨5, 2⟩ (mcCreate ⟨5, 1⟩ ([] : UidToMCParticleMap)).2).2 =
      (mcCreate ⟨5, 1⟩ ([] : UidToMCParticleMap)).2 ∧
    mapFind 5 (mcCreate ⟨5, 2⟩ (mcCreate ⟨5, 1⟩ ([] : UidToMCParticleMap)).2).2 =
      some { uid := 5, attrs := 1 } :=
  C4_uid_uniqueness ([] : UidToMCParticleMap) ⟨5, 1⟩ ⟨5, 2⟩ rfl rfl

/-- The MCManager state fields named at src/unnamed/part_000 lines 160 to 165
that the association entry points touch. -/
structure MCManagerState where
  uidToMCParticleMap : UidToMCParticleMap
  caloHitToMCParticleMap : ObjectRelationMap
  trackToMCParticleMap : ObjectRelationMap

/-- Embedding of MCManager::SetCaloHitToMCParticleRelationship, inline in the
source at src/unnamed/part_000 lines 174 to 177: it forwards to
SetUidToMCParticleRelationship on the calo hit relation map. -/
def setCaloHitToMCParticleRelationship (s : MCManagerState)
    (caloHitUid mcParticleUid : Nat) (w : ℚ) : StatusCode × MCManagerState :=
  let r := setUidToMCParticleRelationship caloHitUid mcParticleUid w
    s.caloHitToMCParticleMap
  (r.1, { s with caloHitToMCParticleMap := r.2 })

/-- Embedding of MCManager::SetTrackToMCParticleRelationship, inline in the
source at src/unnamed/part_000 lines 181 to 184: it forwards to
SetUidToMCParticleRelationship on the track relation map. -/
def setTrackToMCParticleRelationship (s : MCManagerState)
    (trackUid mcParticleUid : Nat) (w : ℚ) : StatusCode × MCManagerState :=
  let r := setUidToMCParticleRelationship trackUid mcParticleUid w
    s.trackToMCParticleMap
  (r.1, { s with trackToMCParticleMap := r.2 })

/-- Claim C9: the hit and track association entry points are the same
operation on parallel registries: each returns exactly the outcome of
SetUidToMCParticleRelationship applied to its own map, updates only that map
with exactly that function, and leaves the other registry untouched. -/
theorem C9_parallel_registries (s : MCManagerState) (u t : Nat) (w : ℚ) :
    (setCaloHitToMCParticleRelationship s u t w).1 =
      (setUidToMCParticleRelationship u t w s.caloHitToMCParticleMap).1 ∧
    (setCaloHitToMCParticleRelationship s u t w).2.caloHitToMCParticleMap =
      (setUidToMCParticleRelationship u t w s.caloHitToMCParticleMap).2 ∧
    (setCaloHitToMCParticleRelationship s u t w).2.trackToMCParticleMap =
      s.trackToMCParticleMap ∧
    (setTrackToMCParticleRelationship s u t w).1 =
      (setUidToMCParticleRelationship u t w s.trackToMCParticleMap).1 ∧
    (setTrackToMCParticleRelationship s u t w).2.trackToMCParticleMap =
      (setUidToMCParticleRelationship u t w s.trackToMCParticleMap).2 ∧
    (setTrackToMCParticleRelationship s u t w).2.caloHitToMCParticleMap =
      s.caloHitToMCParticleMap :=
  ⟨rfl, rfl, rfl, rfl, rfl, rfl⟩

/-- A truth (mc) particle as the pfo-target resolution sees it: its uid, its
parent link after relationship resolution, whether the configured selection
predicate accepts it, and the pfo target written back onto it. The list of
particles is kept in declaration (registration) order. -/
structure MCPart where
  uid : Nat
  parentUid : Option Nat
  isPfoCandidate : Bool
  pfoTarget : Option Nat
  deriving DecidableEq, Repr

/-- Find the particle carrying a uid (first match in declaration order). -/
def partFind (ps : List MCPart) (u : Nat) : Option MCPart :=
  ps.find? (fun p => decide (p.uid = u))

/-- Walk parent links upwards with explicit fuel (the list length bounds every
acyclic walk). -/
def rootOfFuel (ps : List MCPart) : Nat → Nat → Nat
  | 0, u => u
  | Nat.succ fuel, u =>
      match partFind ps u with
      | none => u
      | some p =>
          match p.parentUid with
          | none => u
          | some q => rootOfFuel ps fuel q

/-- The root (no-parent ancestor) reached from a uid. -/
def rootOf (ps : List MCPart) (u : Nat) : Nat :=
  rootOfFuel ps ps.length u

/-- Modelled from the spec: the target chosen for the tree containing uid u by
SelectPfoTargets / ApplyPfoSelectionRules (declared at src/unnamed/part_000
lines 79 to 104, bodies in the missing MCManager.cc). Per the spec, each root
truth particle has its subtree walked with the configured selection predicate
applied, ties broken by declaration order, so every particle is assigned the
first registered candidate belonging to its tree. -/
def pfoTargetFor (ps : List MCPart) (u : Nat) : Option Nat :=
  (ps.find? (fun p => p.isPfoCandidate &&
    decide (rootOf ps p.uid = rootOf ps u))).map (fun p => p.uid)

/-- Modelled from the spec: SelectPfoTargets writes the pfo target back onto
every visited particle, leaving every other field untouched. -/
def selectPfoTargets (ps : List MCPart) : List MCPart :=
  ps.map (fun p => { p with pfoTarget := pfoTargetFor ps p.uid })

theorem partFind_update (f : MCPart → Option Nat) (ps : List MCPart) (u : Nat) :
    partFind (ps.map (fun p => { p with pfoTarget := f p })) u =
      (partFind ps u).map (fun p => { p with pfoTarget := f p }) := by
  induction ps with
  | nil => rfl
  | cons p rest ih =>
    by_cases h : p.uid = u
    · simp [partFind, List.find?, h]
    · simp only [List.map_cons]
      simp [partFind, List.find?, h] at ih ⊢
      exact ih

theorem rootOfFuel_update (f : MCPart → Option Nat) (ps : List MCPart)
    (n u : Nat) :
    rootOfFuel (ps.map (fun p => { p with pfoTarget := f p })) n u =
      rootOfFuel ps n u := by
  induction n generalizing u with
  | zero => rfl
  | succ n ih =>
    unfold rootOfFuel
    rw [partFind_update]
    cases hp : partFind ps u with
    | none => rfl
    | some p =>
      simp only [Option.map_some']
      cases hq : p.parentUid with
      | none => simp [hq]
      | some q => simp [hq, ih]

theorem rootOf_update (f : MCPart → Option Nat) (ps : List MCPart) (u : Nat) :
    rootOf (ps.map (fun p => { p with pfoTarget := f p })) u = rootOf ps u := by
  unfold rootOf
  rw [List.length_map]
  exact rootOfFuel_update f ps ps.length u

theorem pfoTargetFor_update (f : MCPart → Option Nat) (ps : List MCPart)
    (u : Nat) :
    pfoTargetFor (ps.map (fun p => { p with pfoTarget := f p })) u =
      pfoTargetFor ps u := by
  unfold pfoTargetFor
  rw [List.find?_map, Option.map_map]
  have hpred : ((fun p : MCPart => p.isPfoCandidate &&
      decide (rootOf (ps.map (fun p => { p with pfoTarget := f p })) p.uid =
        rootOf (ps.map (fun p => { p with pfoTarget := f p })) u)) ∘
      (fun p : MCPart => { p with pfoTarget := f p })) =
      (fun p : MCPart => p.isPfoCandidate &&
        decide (rootOf ps p.uid = rootOf ps u)) := by
    funext q
    simp [Function.comp, rootOf_update]
  rw [hpred]
  have hproj : ((fun p : MCPart => p.uid) ∘
      (fun p : MCPart => { p with pfoTarget := f p })) =
      (fun p : MCPart => p.uid) := by
    funext q
    rfl
  rw [hproj]

/-- Claim C8: pfo-target selection is deterministic: resolving targets leaves
the per-uid choice function unchanged (the write-back mutates only the target
field, which the selection never reads), so resolving twice without
intervening mutation yields the identical (uid, target) assignment both
times. -/
theorem C8_pfo_target_determinism (ps : List MCPart) :
    (∀ u, pfoTargetFor (selectPfoTargets ps) u = pfoTargetFor ps u) ∧
    (selectPfoTargets (selectPfoTargets ps)).map (fun p => (p.uid, p.pfoTarget)) =
      (selectPfoTargets ps).map (fun p => (p.uid, p.pfoTarget)) := by
  have hfor : ∀ u, pfoTargetFor (selectPfoTargets ps) u = pfoTargetFor ps u := by
    intro u
    unfold selectPfoTargets
    exact pfoTargetFor_update _ ps u
  refine ⟨hfor, ?_⟩
  show (((selectPfoTargets ps).map
      (fun p => { p with pfoTarget := pfoTargetFor (selectPfoTargets ps) p.uid })).map
      (fun p => (p.uid, p.pfoTarget))) =
    ((selectPfoTargets ps).map (fun p => (p.uid, p.pfoTarget)))
  rw [List.map_map]
  apply List.map_congr_left
  intro p hp
  have hpt : p.pfoTarget = pfoTargetFor ps p.uid := by
    unfold selectPfoTargets at hp
    rcases List.mem_map.mp hp with ⟨q, _, rfl⟩
    rfl
  simp [Function.comp, hfor, hpt]

/-- Embedding of Manager::AlgorithmInfo (src/Managers/Manager.h lines 164 to
170): the current list name at registration, the temporary list names created
by the invocation, and the created-list counter. -/
structure AlgorithmInfo where
  parentListName : String
  temporaryListNames : List String
  numberOfListsCreated : Nat
  deriving DecidableEq, Repr

/-- Embedding of the Manager state fields (src/Managers/Manager.h lines 172 to
182): object handles are numbers, the name-to-list and algorithm-info maps are
association maps, plus the current list name and the saved list set. -/
structure ManagerState where
  nameToListMap : List (String × List Nat)
  algorithmInfoMap : List (Nat × AlgorithmInfo)
  currentListName : String
  savedLists : List String
  deriving DecidableEq, Repr

/-- Embedding of Manager::GetList (declared at src/Managers/Manager.h line 50,
body in the missing Manager.cc; the spec contract is GetList(name) -> list or
NOT_FOUND). -/
def getList (s : ManagerState) (listName : String) :
    Except StatusCode (List Nat) :=
  match mapFind listName s.nameToListMap with
  | none => Except.error StatusCode.notFound
  | some l => Except.ok l

/-- Modelled from the spec: Manager::RegisterAlgorithm (declared at
src/Managers/Manager.h line 127, body in the missing Manager.cc). Pushes the
invocation frame: the parent list name recorded is the current list name at
registration time. A second registration of the same invocation fails
ALREADY_PRESENT. -/
def registerAlgorithm (s : ManagerState) (a : Nat) :
    StatusCode × ManagerState :=
  match mapFind a s.algorithmInfoMap with
  | some _ => (StatusCode.alreadyPresent, s)
  | none =>
      let newInfo : AlgorithmInfo :=
        { parentListName := s.currentListName, temporaryListNames := [],
          numberOfListsCreated := 0 }
      (StatusCode.success,
        { s with algorithmInfoMap := mapInsert a newInfo s.algorithmInfoMap })

/-- Modelled from the spec: Manager::CreateTemporaryListAndSetCurrent
(declared at src/Managers/Manager.h line 120, body in the missing Manager.cc).
With no registered invocation the operation fails NOT_INITIALIZED; otherwise a
uniquely named empty list is allocated, made current, and recorded against the
invocation frame, whose created-list counter increments. -/
def createTemporaryListAndSetCurrent (s : ManagerState) (a : Nat) :
    StatusCode × ManagerState × String :=
  match mapFind a s.algorithmInfoMap with
  | none => (StatusCode.notInitStatus, s, "")
  | some info =>
      let temporaryListName :=
        "Temp_" ++ toString a ++ "_" ++ toString info.numberOfListsCreated
      let newInfo : AlgorithmInfo :=
        { info with
          temporaryListNames := temporaryListName :: info.temporaryListNames,
          numberOfListsCreated := info.numberOfListsCreated + 1 }
      (StatusCode.success,
        { s with
          nameToListMap := mapInsert temporaryListName [] s.nameToListMap,
          currentListName := temporaryListName,
          algorithmInfoMap := mapInsert a newInfo s.algorithmInfoMap },
        temporaryListName)

/-- Drop from the name-to-list map every list whose name the invocation frame
records as temporary. -/
def dropTemporaryLists (names : List String)
    (m : List (String × List Nat)) : List (String × List Nat) :=
  m.filter (fun p => decide (¬(p.1 ∈ names)))

/-- Modelled from the spec: Manager::ResetAlgorithmInfo (declared at
src/Managers/Manager.h line 135, body in the missing Manager.cc). On pop,
temporary lists not promoted are discarded and the current list reverts to the
parent list name recorded in the invocation frame; when the algorithm is
finished the frame is removed entirely, otherwise it is kept with its
temporary set cleared. With no registered invocation the operation fails
NOT_INITIALIZED. -/
def resetAlgorithmInfo (s : ManagerState) (a : Nat) (isAlgorithmFinished : Bool) :
    StatusCode × ManagerState :=
  match mapFind a s.algorithmInfoMap with
  | none => (StatusCode.notInitStatus, s)
  | some info =>
      let keptInfo : AlgorithmInfo := { info with temporaryListNames := [] }
      (StatusCode.success,
        { s with
          nameToListMap := dropTemporaryLists info.temporaryListNames s.nameToListMap,
          currentListName := info.parentListName,
          algorithmInfoMap :=
            if isAlgorithmFinished then mapErase a s.algorithmInfoMap
            else mapInsert a keptInfo s.algorithmInfoMap })

theorem mapFind_dropTemporaryLists {β : Type} (names : List String)
    (m : List (String × β)) (n : String) (h : n ∈ names) :
    mapFind n (m.filter (fun p => decide (¬(p.1 ∈ names)))) = none := by
  induction m with
  | nil => rfl
  | cons p rest ih =>
    by_cases hp : p.1 ∈ names
    · simpa [List.filter_cons, hp] using ih
    · have hne : ¬(p.1 = n) := fun hh => hp (hh ▸ h)
      simpa [List.filter_cons, hp, mapFind, hne] using ih

/-- Claim C5: for every manager state in which an invocation frame is
registered and still records a temporary list name as unpromoted, resetting
the algorithm info with isFinished = true succeeds, makes a lookup of that
temporary list name fail NOT_FOUND, and leaves the current list name equal to
the parent list name recorded in the invocation frame. -/
theorem C5_list_scoping (s : ManagerState) (a : Nat) (info : AlgorithmInfo)
    (n : String) (hreg : mapFind a s.algorithmInfoMap = some info)
    (hmem : n ∈ info.temporaryListNames) :
    (resetAlgorithmInfo s a true).1 = StatusCode.success ∧
    getList (resetAlgorithmInfo s a true).2 n =
      Except.error StatusCode.notFound ∧
    (resetAlgorithmInfo s a true).2.currentListName = info.parentListName := by
  have hstep : resetAlgorithmInfo s a true =
      (StatusCode.success,
        { s with
          nameToListMap := dropTemporaryLists info.temporaryListNames s.nameToListMap,
          currentListName := info.parentListName,
          algorithmInfoMap := mapErase a s.algorithmInfoMap }) := by
    unfold resetAlgorithmInfo
    rw [hreg]
    rfl
  refine ⟨by rw [hstep], ?_, by rw [hstep]⟩
  rw [hstep]
  unfold getList
  show (match mapFind n
      (dropTemporaryLists info.temporaryListNames s.nameToListMap) with
    | none => Except.error StatusCode.notFound
    | some l => Except.ok l) = _
  rw [show mapFind n (dropTemporaryLists info.temporaryListNames s.nameToListMap)
      = none from mapFind_dropTemporaryLists _ _ _ hmem]

/-- Witness for claim C5: a concrete state with one registered invocation
holding one unpromoted temporary list. -/
theorem C5_list_scoping_witness :
    (resetAlgorithmInfo
      { nameToListMap := [("Input", [1, 2]), ("Temp_7_0", [3])],
        algorithmInfoMap := [(7,
          { parentListName := "Input", temporaryListNames := ["Temp_7_0"],
            numberOfListsCreated := 1 })],
        currentListName := "Temp_7_0", savedLists := ["Input"] } 7 true).1 =
      StatusCode.success ∧
    getList (resetAlgorithmInfo
      { nameToListMap := [("Input", [1, 2]), ("Temp_7_0", [3])],
        algorithmInfoMap := [(7,
          { parentListName := "Input", temporaryListNames := ["Temp_7_0"],
            numberOfListsCreated := 1 })],
        currentListName := "Temp_7_0", savedLists := ["Input"] } 7 true).2
      "Temp_7_0" = Except.error StatusCode.notFound ∧
    (resetAlgorithmInfo
      { nameToListMap := [("Input", [1, 2]), ("Temp_7_0", [3])],
        algorithmInfoMap := [(7,
          { parentListName := "Input", temporaryListNames := ["Temp_7_0"],
            numberOfListsCreated := 1 })],
        currentListName := "Temp_7_0", savedLists := ["Input"] } 7 true).2.currentListName =
      "Input" :=
  C5_list_scoping
    { nameToListMap := [("Input", [1, 2]), ("Temp_7_0", [3])],
      algorithmInfoMap := [(7,
        { parentListName := "Input", temporaryListNames := ["Temp_7_0"],
          numberOfListsCreated := 1 })],
      currentListName := "Temp_7_0", savedLists := ["Input"] } 7
    { parentListName := "Input", temporaryListNames := ["Temp_7_0"],
      numberOfListsCreated := 1 } "Temp_7_0" (by rfl) (by simp)

/-- Embedding of ReclusterMetadata (referenced at src/Managers/CaloHitManager.h
lines 195 to 197; Managers/Metadata.h is not under src): one stack frame
holding the mapping of candidate list names to their hit contents and the name
of the candidate currently being written. -/
structure ReclusterMetadata where
  candidates : List (String × List Nat)
  currentCandidateName : String
  deriving DecidableEq, Repr

/-- Embedding of the CaloHitManager reclustering state fields
(src/Managers/CaloHitManager.h lines 195 to 197): the live (current) hit list,
the number of reclustering processes in operation, and the recluster metadata
stack whose head is the innermost frame. -/
structure CaloHitReclusterState where
  liveHits : List Nat
  nReclusteringProcesses : Nat
  reclusterMetadataList : List ReclusterMetadata
  deriving DecidableEq, Repr

/-- Modelled from the spec: CaloHitManager::InitializeReclustering (declared at
src/Managers/CaloHitManager.h lines 154 to 155, body in the missing
CaloHitManager.cc). Pushes a new ReclusterMetadata frame capturing the
involved hits as the baseline candidate under the original list name, makes
those hits the current hit list, and increments the nesting depth. -/
def initReclustering (s : CaloHitReclusterState) (hits : List Nat)
    (originalReclusterListName : String) :
    StatusCode × CaloHitReclusterState :=
  let newFrame : ReclusterMetadata :=
    { candidates := [(originalReclusterListName, hits)],
      currentCandidateName := originalReclusterListName }
  (StatusCode.success,
    { liveHits := hits,
      nReclusteringProcesses := s.nReclusteringProcesses + 1,
      reclusterMetadataList := newFrame :: s.reclusterMetadataList })

/-- Modelled from the spec: CaloHitManager::PrepareForClustering (declared at
src/Managers/CaloHitManager.h line 163, body in the missing CaloHitManager.cc).
Opens an additional named candidate partition, initially empty, within the
current frame and switches the current hit list to it so a nested clustering
algorithm writes into it without perturbing sibling candidates. Fails
NOT_INITIALIZED when no frame is open. -/
def prepareForClustering (s : CaloHitReclusterState)
    (newReclusterListName : String) : StatusCode × CaloHitReclusterState :=
  match s.reclusterMetadataList with
  | [] => (StatusCode.notInitStatus, s)
  | f :: rest =>
      let newFrame : ReclusterMetadata :=
        { candidates := mapInsert newReclusterListName [] f.candidates,
          currentCandidateName := newReclusterListName }
      (StatusCode.success,
        { s with liveHits := [], reclusterMetadataList := newFrame :: rest })

/-- Modelled from the spec: the hits produced by a nested clustering algorithm
are written into the candidate currently open in the innermost frame and
become the current hit list. -/
def recordReclusterHits (s : CaloHitReclusterState) (hits : List Nat) :
    StatusCode × CaloHitReclusterState :=
  match s.reclusterMetadataList with
  | [] => (StatusCode.notInitStatus, s)
  | f :: rest =>
      let contents :=
        ((mapFind f.currentCandidateName f.candidates).getD []) ++ hits
      let newFrame : ReclusterMetadata :=
        { f with candidates :=
            mapInsert f.currentCandidateName contents f.candidates }
      (StatusCode.success,
        { s with
          liveHits := contents,
          reclusterMetadataList := newFrame :: rest })

/-- Modelled from the spec: CaloHitManager::EndReclustering (declared at
src/Managers/CaloHitManager.h line 171, body in the missing CaloHitManager.cc).
Commits the chosen candidate: its hits become the live hit list; every other
candidate of the current frame is discarded with the popped frame; the nesting
depth decrements. Fails FAILURE at nesting depth zero (Idle) and FAILURE when
the selected candidate name was never registered in the current frame. -/
def endReclustering (s : CaloHitReclusterState)
    (selectedReclusterListName : String) :
    StatusCode × CaloHitReclusterState :=
  if s.nReclusteringProcesses = 0 then
    (StatusCode.failure, s)
  else
    match s.reclusterMetadataList with
    | [] => (StatusCode.failure, s)
    | f :: rest =>
        match mapFind selectedReclusterListName f.candidates with
        | none => (StatusCode.failure, s)
        | some hits =>
            (StatusCode.success,
              { liveHits := hits,
                nReclusteringProcesses := s.nReclusteringProcesses - 1,
                reclusterMetadataList := rest })

/-- Query a candidate list registered in the current (innermost) frame. -/
def queryReclusterCandidate (s : CaloHitReclusterState) (listName : String) :
    Except StatusCode (List Nat) :=
  match s.reclusterMetadataList with
  | [] => Except.error StatusCode.notFound
  | f :: _ =>
      match mapFind listName f.candidates with
      | none => Except.error StatusCode.notFound
      | some hits => Except.ok hits

/-- Claim C1: after opening a frame with original candidate orig and preparing
candidates A (hits h1, h2) and B (hit h3), committing A succeeds with the live
hit list exactly [h1, h2], the frame popped (stack and depth restored), every
other candidate of the frame discarded (querying B at top level fails
NOT_FOUND), while committing a name never registered in the frame fails
FAILURE. -/
theorem C1_recluster_commit (live hits : List Nat) (d : Nat)
    (rest : List ReclusterMetadata) (h1 h2 h3 : Nat) (A B orig : String)
    (hAB : A ≠ B) (hAorig : A ≠ orig) (hBorig : B ≠ orig) :
    endReclustering (recordReclusterHits (prepareForClustering
        (recordReclusterHits (prepareForClustering
          (initReclustering ⟨live, d, rest⟩ hits orig).2 A).2 [h1, h2]).2
        B).2 [h3]).2 A =
      (StatusCode.success, ⟨[h1, h2], d, rest⟩) ∧
    queryReclusterCandidate (⟨[h1, h2], d, []⟩ : CaloHitReclusterState) B =
      Except.error StatusCode.notFound ∧
    (∀ sel : String, sel ≠ orig → sel ≠ A → sel ≠ B →
      (endReclustering (recordReclusterHits (prepareForClustering
          (recordReclusterHits (prepareForClustering
            (initReclustering ⟨live, d, rest⟩ hits orig).2 A).2 [h1, h2]).2
          B).2 [h3]).2 sel).1 = StatusCode.failure) := by
  have hOA : ¬(orig = A) := fun hh => hAorig hh.symm
  have hOB : ¬(orig = B) := fun hh => hBorig hh.symm
  have hABn : ¬(A = B) := hAB
  have hBA : ¬(B = A) := fun hh => hAB hh.symm
  have hs5 : (recordReclusterHits (prepareForClustering
      (recordReclusterHits (prepareForClustering
        (initReclustering ⟨live, d, rest⟩ hits orig).2 A).2 [h1, h2]).2
      B).2 [h3]).2 =
      ⟨[h3], d + 1,
        ({ candidates := [(orig, hits), (A, [h1, h2]), (B, [h3])],
           currentCandidateName := B } : ReclusterMetadata) :: rest⟩ := by
    simp [initReclustering, prepareForClustering, recordReclusterHits,
      mapInsert, mapFind, hOA, hOB, hABn, hBA]
  refine ⟨?_, ?_, ?_⟩
  · rw [hs5]
    simp [endReclustering, mapFind, hOA, hABn]
  · rfl
  · intro sel hsO hsA hsB
    rw [hs5]
    have h1n : ¬(orig = sel) := fun hh => hsO hh.symm
    have h2n : ¬(A = sel) := fun hh => hsA hh.symm
    have h3n : ¬(B = sel) := fun hh => hsB hh.symm
    simp [endReclustering, mapFind, h1n, h2n, h3n]

/-- Witness for claim C1: the round trip at concrete names and hits. -/
theorem C1_recluster_commit_witness :
    endReclustering (recordReclusterHits (prepareForClustering
        (recordReclusterHits (prepareForClustering
          (initReclustering ⟨[5, 6], 0, []⟩ [5, 6] "orig").2 "A").2 [1, 2]).2
        "B").2 [3]).2 "A" =
      (StatusCode.success, ⟨[1, 2], 0, []⟩) ∧
    queryReclusterCandidate (⟨[1, 2], 0, []⟩ : CaloHitReclusterState) "B" =
      Except.error StatusCode.notFound ∧
    (∀ sel : String, sel ≠ "orig" → sel ≠ "A" → sel ≠ "B" →
      (endReclustering (recordReclusterHits (prepareForClustering
          (recordReclusterHits (prepareForClustering
            (initReclustering ⟨[5, 6], 0, []⟩ [5, 6] "orig").2 "A").2 [1, 2]).2
          "B").2 [3]).2 sel).1 = StatusCode.failure) :=
  C1_recluster_commit [5, 6] [5, 6] 0 [] 1 2 3 "A" "B" "orig"
    (by decide) (by decide) (by decide)

/-- Claim C6: the reclustering state machine per nesting level. Calling
EndReclustering while Idle (depth zero) fails FAILURE and leaves the state
unchanged; InitializeReclustering opens exactly one level (depth increments
and exactly one frame is pushed); PrepareForClustering and candidate recording
stay at the same level; and a successful EndReclustering can only happen at
positive depth (so a matching Initialize happened), popping exactly the
innermost frame and decrementing the depth. -/
theorem C6_recluster_state_machine (s : CaloHitReclusterState) (sel : String)
    (hits : List Nat) :
    (s.nReclusteringProcesses = 0 →
      endReclustering s sel = (StatusCode.failure, s)) ∧
    (initReclustering s hits sel).2.nReclusteringProcesses =
      s.nReclusteringProcesses + 1 ∧
    (initReclustering s hits sel).2.reclusterMetadataList.length =
      s.reclusterMetadataList.length + 1 ∧
    (initReclustering s hits sel).2.reclusterMetadataList.tail =
      s.reclusterMetadataList ∧
    (prepareForClustering s sel).2.nReclusteringProcesses =
      s.nReclusteringProcesses ∧
    (recordReclusterHits s hits).2.nReclusteringProcesses =
      s.nReclusteringProcesses ∧
    ((endReclustering s sel).1 = StatusCode.success →
      0 < s.nReclusteringProcesses ∧
      (endReclustering s sel).2.nReclusteringProcesses =
        s.nReclusteringProcesses - 1 ∧
      (endReclustering s sel).2.reclusterMetadataList =
        s.reclusterMetadataList.tail) := by
  refine ⟨?_, rfl, by simp [initReclustering], rfl, ?_, ?_, ?_⟩
  · intro h0
    unfold endReclustering
    rw [if_pos h0]
  · unfold prepareForClustering
    cases s.reclusterMetadataList <;> rfl
  · unfold recordReclusterHits
    cases s.reclusterMetadataList <;> rfl
  · intro hsucc
    by_cases h0 : s.nReclusteringProcesses = 0
    · rw [show endReclustering s sel = (StatusCode.failure, s) by
        unfold endReclustering; rw [if_pos h0]] at hsucc
      simp at hsucc
    · cases hf : s.reclusterMetadataList with
      | nil =>
        rw [show endReclustering s sel = (StatusCode.failure, s) by
          unfold endReclustering; rw [if_neg h0, hf]] at hsucc
        simp at hsucc
      | cons f r =>
        cases hm : mapFind sel f.candidates with
        | none =>
          have hfail : endReclustering s sel = (StatusCode.failure, s) := by
            unfold endReclustering
            rw [if_neg h0, hf]
            show (match mapFind sel f.candidates with
              | none => (StatusCode.failure, s)
              | some hl2 =>
                  (StatusCode.success,
                    { liveHits := hl2,
                      nReclusteringProcesses := s.nReclusteringProcesses - 1,
                      reclusterMetadataList := r })) = _
            rw [hm]
          rw [hfail] at hsucc
          simp at hsucc
        | some hl =>
          have hend : endReclustering s sel =
              (StatusCode.success,
                { liveHits := hl,
                  nReclusteringProcesses := s.nReclusteringProcesses - 1,
                  reclusterMetadataList := r }) := by
            unfold endReclustering
            rw [if_neg h0, hf]
            show (match mapFind sel f.candidates with
              | none => (StatusCode.failure, s)
              | some hl2 =>
                  (StatusCode.success,
                    { liveHits := hl2,
                      nReclusteringProcesses := s.nReclusteringProcesses - 1,
                      reclusterMetadataList := r })) = _
            rw [hm]
          exact ⟨Nat.pos_of_ne_zero h0, by rw [hend], by rw [hend]; rfl⟩

/-- Witness for claim C6: ending a reclustering at depth zero on a concrete
idle state fails FAILURE with the state unchanged. -/
theorem C6_recluster_state_machine_witness :
    endReclustering ⟨[], 0, []⟩ "X" = (StatusCode.failure, ⟨[], 0, []⟩) :=
  (C6_recluster_state_machine ⟨[], 0, []⟩ "X" []).1 rfl

/-- A calo hit as fragmentation sees it: its (hadronic) energy, every other
per-hit attribute folded into one opaque field, and its fragmentation
provenance: none for an ordinary hit, or the uid of the original hit together
with which of the two complementary daughters this hit is. -/
structure FragCaloHit where
  energy : ℚ
  attrs : Nat
  fragmentSide : Option (Nat × Bool)
  deriving DecidableEq, Repr

/-- The hit store of the calo hit manager for fragmentation purposes: hits
keyed by uid, plus the next fresh uid the factory will allocate. -/
structure CaloHitStore where
  hits : List (Nat × FragCaloHit)
  nextUid : Nat
  deriving DecidableEq, Repr

/-- Modelled from the spec: CaloHitManager::CanFragmentCaloHit (declared at
src/Managers/CaloHitManager.h lines 127 to 135, body in the missing
CaloHitManager.cc): fragmentation is allowed only for an energy fraction
strictly inside (0, 1) applied to a hit that is not itself an unmerged
fragment of a prior split. -/
def canFragmentCaloHit (c : FragCaloHit) (fraction1 : ℚ) : Bool :=
  decide (0 < fraction1) && decide (fraction1 < 1) && c.fragmentSide.isNone

/-- Modelled from the spec: CaloHitManager::FragmentCaloHit (declared at
src/Managers/CaloHitManager.h lines 113 to 114, body in the missing
CaloHitManager.cc). Splits the energy of the hit by fraction1 and
1 - fraction1 onto two freshly allocated daughters that keep every other
attribute and record their provenance, deletes the original, and returns the
daughter uids; fails NOT_FOUND for an unknown uid and NOT_ALLOWED when the
fragmentation guard rejects. -/
def fragmentCaloHit (st : CaloHitStore) (u : Nat) (fraction1 : ℚ) :
    StatusCode × CaloHitStore × Option (Nat × Nat) :=
  match mapFind u st.hits with
  | none => (StatusCode.notFound, st, none)
  | some c =>
      if canFragmentCaloHit c fraction1 then
        let d1 : FragCaloHit :=
          { energy := fraction1 * c.energy, attrs := c.attrs,
            fragmentSide := some (u, true) }
        let d2 : FragCaloHit :=
          { energy := (1 - fraction1) * c.energy, attrs := c.attrs,
            fragmentSide := some (u, false) }
        (StatusCode.success,
          { hits := mapInsert (st.nextUid + 1) d2
              (mapInsert st.nextUid d1 (mapErase u st.hits)),
            nextUid := st.nextUid + 2 },
          some (st.nextUid, st.nextUid + 1))
      else
        (StatusCode.notAllowed, st, none)

/-- Modelled from the spec: CaloHitManager::CanMergeCaloHitFragments (declared
at src/Managers/CaloHitManager.h lines 138 to 145, body in the missing
CaloHitManager.cc): merging is allowed exactly when the two hits are
complementary fragments (opposite sides) of a common original. -/
def canMergeCaloHitFragments (c1 c2 : FragCaloHit) : Bool :=
  match c1.fragmentSide, c2.fragmentSide with
  | some (p1, s1), some (p2, s2) => decide (p1 = p2) && decide (s1 ≠ s2)
  | _, _ => false

/-- Modelled from the spec: CaloHitManager::MergeCaloHitFragments (declared at
src/Managers/CaloHitManager.h lines 124 to 125, body in the missing
CaloHitManager.cc). The inverse of fragmentation: deletes the two fragments
and allocates a merged hit carrying the summed energy, the common attributes
and no fragment provenance; fails NOT_FOUND for unknown uids and NOT_ALLOWED
when the merge guard rejects. -/
def mergeCaloHitFragments (st : CaloHitStore) (u1 u2 : Nat) :
    StatusCode × CaloHitStore × Option Nat :=
  match mapFind u1 st.hits, mapFind u2 st.hits with
  | some c1, some c2 =>
      if canMergeCaloHitFragments c1 c2 then
        let merged : FragCaloHit :=
          { energy := c1.energy + c2.energy, attrs := c1.attrs,
            fragmentSide := none }
        (StatusCode.success,
          { hits := mapInsert st.nextUid merged
              (mapErase u2 (mapErase u1 st.hits)),
            nextUid := st.nextUid + 1 },
          some st.nextUid)
      else
        (StatusCode.notAllowed, st, none)
  | _, _ => (StatusCode.notFound, st, none)

/-- Claim C7: for a stored hit that is not an unmerged fragment and a fraction
strictly inside (0, 1), FragmentCaloHit succeeds and produces two fresh
daughters carrying the fractions fraction1 and 1 - fraction1 of the energy
with all other attributes preserved and the original deleted; merging those
two daughters succeeds and restores a hit with exactly the original energy and
attributes; fragmentation is refused NOT_ALLOWED for a fraction outside (0, 1)
or for a hit that is an unmerged fragment, and merging is refused NOT_ALLOWED
whenever the two hits are not complementary fragments of a common original. -/
theorem C7_fragment_merge_inverse (st : CaloHitStore) (u : Nat)
    (c : FragCaloHit) (fraction1 : ℚ)
    (hfind : mapFind u st.hits = some c) (hside : c.fragmentSide = none)
    (hf0 : 0 < fraction1) (hf1 : fraction1 < 1)
    (hn1 : st.nextUid ≠ u) (hn2 : st.nextUid + 1 ≠ u) :
    (fragmentCaloHit st u fraction1).1 = StatusCode.success ∧
    (fragmentCaloHit st u fraction1).2.2 = some (st.nextUid, st.nextUid + 1) ∧
    mapFind st.nextUid (fragmentCaloHit st u fraction1).2.1.hits =
      some { energy := fraction1 * c.energy, attrs := c.attrs,
             fragmentSide := some (u, true) } ∧
    mapFind (st.nextUid + 1) (fragmentCaloHit st u fraction1).2.1.hits =
      some { energy := (1 - fraction1) * c.energy, attrs := c.attrs,
             fragmentSide := some (u, false) } ∧
    mapFind u (fragmentCaloHit st u fraction1).2.1.hits = none ∧
    (mergeCaloHitFragments (fragmentCaloHit st u fraction1).2.1
      st.nextUid (st.nextUid + 1)).1 = StatusCode.success ∧
    (mergeCaloHitFragments (fragmentCaloHit st u fraction1).2.1
      st.nextUid (st.nextUid + 1)).2.2 = some (st.nextUid + 2) ∧
    mapFind (st.nextUid + 2)
      (mergeCaloHitFragments (fragmentCaloHit st u fraction1).2.1
        st.nextUid (st.nextUid + 1)).2.1.hits =
      some { energy := c.energy, attrs := c.attrs, fragmentSide := none } ∧
    (∀ f2 : ℚ, ¬(0 < f2 ∧ f2 < 1) →
      (fragmentCaloHit st u f2).1 = StatusCode.notAllowed) ∧
    (∀ (st2 : CaloHitStore) (u2 : Nat) (c2 : FragCaloHit) (f2 : ℚ),
      mapFind u2 st2.hits = some c2 → c2.fragmentSide ≠ none →
      (fragmentCaloHit st2 u2 f2).1 = StatusCode.notAllowed) ∧
    (∀ (st2 : CaloHitStore) (v1 v2 : Nat) (c1 c2 : FragCaloHit),
      mapFind v1 st2.hits = some c1 → mapFind v2 st2.hits = some c2 →
      canMergeCaloHitFragments c1 c2 = false →
      (mergeCaloHitFragments st2 v1 v2).1 = StatusCode.notAllowed) := by
  have hcan : canFragmentCaloHit c fraction1 = true := by
    simp [canFragmentCaloHit, hf0, hf1, hside]
  have hne : st.nextUid ≠ st.nextUid + 1 := by omega
  have hne2 : st.nextUid + 1 ≠ st.nextUid := by omega
  have hF : fragmentCaloHit st u fraction1 =
      (StatusCode.success,
        { hits := mapInsert (st.nextUid + 1)
            ({ energy := (1 - fraction1) * c.energy, attrs := c.attrs,
               fragmentSide := some (u, false) })
            (mapInsert st.nextUid
              ({ energy := fraction1 * c.energy, attrs := c.attrs,
                 fragmentSide := some (u, true) })
              (mapErase u st.hits)),
          nextUid := st.nextUid + 2 },
        some (st.nextUid, st.nextUid + 1)) := by
    unfold fragmentCaloHit
    rw [hfind]
    simp [hcan]
  have hd1 : mapFind st.nextUid (fragmentCaloHit st u fraction1).2.1.hits =
      some { energy := fraction1 * c.energy, attrs := c.attrs,
             fragmentSide := some (u, true) } := by
    rw [hF]
    show mapFind st.nextUid (mapInsert (st.nextUid + 1) _ (mapInsert st.nextUid _ _)) = _
    rw [mapFind_insert_ne _ _ hne, mapFind_insert_self]
  have hd2 : mapFind (st.nextUid + 1) (fragmentCaloHit st u fraction1).2.1.hits =
      some { energy := (1 - fraction1) * c.energy, attrs := c.attrs,
             fragmentSide := some (u, false) } := by
    rw [hF]
    show mapFind (st.nextUid + 1) (mapInsert (st.nextUid + 1) _ _) = _
    rw [mapFind_insert_self]
  have hu : mapFind u (fragmentCaloHit st u fraction1).2.1.hits = none := by
    rw [hF]
    show mapFind u (mapInsert (st.nextUid + 1) _ (mapInsert st.nextUid _ (mapErase u st.hits))) = _
    rw [mapFind_insert_ne _ _ (fun hh => hn2 hh.symm),
      mapFind_insert_ne _ _ (fun hh => hn1 hh.symm), mapFind_erase_self]
  have hM : mergeCaloHitFragments (fragmentCaloHit st u fraction1).2.1
      st.nextUid (st.nextUid + 1) =
      (StatusCode.success,
        { hits := mapInsert (st.nextUid + 2)
            ({ energy := fraction1 * c.energy + (1 - fraction1) * c.energy,
               attrs := c.attrs, fragmentSide := none })
            (mapErase (st.nextUid + 1)
              (mapErase st.nextUid (fragmentCaloHit st u fraction1).2.1.hits)),
          nextUid := st.nextUid + 3 },
        some (st.nextUid + 2)) := by
    unfold mergeCaloHitFragments
    rw [hd1, hd2]
    have hnext : (fragmentCaloHit st u fraction1).2.1.nextUid = st.nextUid + 2 := by
      rw [hF]
    have hcanm : canMergeCaloHitFragments
        ({ energy := fraction1 * c.energy, attrs := c.attrs,
           fragmentSide := some (u, true) })
        ({ energy := (1 - fraction1) * c.energy, attrs := c.attrs,
           fragmentSide := some (u, false) }) = true := by
      simp [canMergeCaloHitFragments]
    simp [hcanm, hnext]
  have henergy : fraction1 * c.energy + (1 - fraction1) * c.energy = c.energy := by
    ring
  refine ⟨by rw [hF], by rw [hF], hd1, hd2, hu, by rw [hM], by rw [hM], ?_, ?_, ?_, ?_⟩
  · rw [hM]
    show mapFind (st.nextUid + 2) (mapInsert (st.nextUid + 2) _ _) = _
    rw [mapFind_insert_self, henergy]
  · intro f2 hf2
    have hcanf : canFragmentCaloHit c f2 = false := by
      rcases not_and_or.mp hf2 with hc | hc
      · simp [canFragmentCaloHit, hc]
      · simp [canFragmentCaloHit, hc]
    unfold fragmentCaloHit
    rw [hfind]
    simp [hcanf]
  · intro st2 u2 c2 f2 hfind2 hside2
    have hcanf : canFragmentCaloHit c2 f2 = false := by
      cases hs : c2.fragmentSide with
      | none => exact absurd hs hside2
      | some pr => simp [canFragmentCaloHit, hs]
    unfold fragmentCaloHit
    rw [hfind2]
    simp [hcanf]
  · intro st2 v1 v2 c1 c2 hfind1 hfind2 hcanm
    unfold mergeCaloHitFragments
    rw [hfind1, hfind2]
    simp [hcanm]

/-- Witness for claim C7: a concrete hit of energy 2 fragmented with fraction
2/5; the fragment succeeds and merging the two daughters restores a hit of
energy 2 with the original attributes. -/
theorem C7_fragment_merge_inverse_witness :
    (fragmentCaloHit ⟨[(0, ⟨2, 9, none⟩)], 1⟩ 0 (2 / 5)).1 =
      StatusCode.success ∧
    mapFind 3 (mergeCaloHitFragments
      (fragmentCaloHit ⟨[(0, ⟨2, 9, none⟩)], 1⟩ 0 (2 / 5)).2.1 1 2).2.1.hits =
      some { energy := 2, attrs := 9, fragmentSide := none } := by
  have h := C7_fragment_merge_inverse ⟨[(0, ⟨2, 9, none⟩)], 1⟩ 0 ⟨2, 9, none⟩
    (2 / 5) rfl rfl (by norm_num) (by norm_num) (by decide) (by decide)
  exact ⟨h.1, h.2.2.2.2.2.2.2.1⟩

end PandoraSDK
